import Mathlib

/-!
Verification of the iterative research agent (core loop, dedup, scoring and
fallback logic).  The definitions below are a shallow embedding of the Python
sources: `core/models.py`, `core/agent.py`, `services/llm_service.py`,
`services/search_service.py` and `utils/helpers.py`.  The two external
capabilities (language model, web search) are modelled as an explicit oracle
record; `datetime` values are reduced to presence flags, and CPython floats
are modelled as `Rat`.
-/

/-! ### Python string primitives -/

/-- Python whitespace set used by `str.strip` / `str.split` (ASCII part). -/
def pyIsSpace (c : Char) : Bool :=
  c = ' ' || c = '\t' || c = '\n' || c = '\r' || c = '\x0b' || c = '\x0c'

/-- Characters of `s.strip()`: drop whitespace from both ends. -/
def pyStripChars (cs : List Char) : List Char :=
  (((cs.dropWhile pyIsSpace).reverse).dropWhile pyIsSpace).reverse

/-- Python `s.strip()`. -/
def pyStrip (s : String) : String :=
  ⟨pyStripChars s.data⟩

/-- Python `s.lower()`, character by character (ASCII range; the claims only
exercise ASCII text). -/
def pyLower (s : String) : String :=
  ⟨s.data.map Char.toLower⟩

/-- Split a character list at every character satisfying `p`, keeping empty
segments (worker for `pySplit`). -/
def splitChars (p : Char → Bool) : List Char → List Char → List (List Char)
  | acc, [] => [acc.reverse]
  | acc, ch :: cs => if p ch then acc.reverse :: splitChars p [] cs
                     else splitChars p (ch :: acc) cs

/-- Python `s.split()` (no argument): split on whitespace, no empty tokens. -/
def pySplit (s : String) : List String :=
  ((splitChars pyIsSpace [] s.data).map (fun cs => (⟨cs⟩ : String))).filter
    (fun t => t ≠ "")

/-- Does `needle` occur at the start of `hay`? (char-list version) -/
def charsStartWith : List Char → List Char → Bool
  | _, [] => true
  | [], _ :: _ => false
  | c :: cs, d :: ds => c = d && charsStartWith cs ds

/-- Does `needle` occur contiguously anywhere in `hay`? -/
def charsContain (needle : List Char) : List Char → Bool
  | [] => needle.isEmpty
  | c :: t => charsStartWith (c :: t) needle || charsContain needle t

/-- Python `needle in hay` on strings (substring containment). -/
def strContainsSub (hay needle : String) : Bool :=
  charsContain needle.data hay.data

/-- Python `a or b` on strings (empty string is falsy). -/
def pyStrOr (a b : String) : String :=
  if a = "" then b else a

/-- Python chained `or` over optional string fields: first present, non-empty
value wins, otherwise the given default (`d.get(k) or d.get(k2) or dflt`). -/
def firstTruthy : List (Option String) → String → String
  | [], dflt => dflt
  | none :: rest, dflt => firstTruthy rest dflt
  | some s :: rest, dflt => if s = "" then firstTruthy rest dflt else s

/-- First occurrence of each element, in order of first appearance.  Models the
key sequence of a Python `dict` built by repeated assignment, and the distinct
elements of a Python `set` built from a list. -/
def first_occurrences : List String → List String
  | [] => []
  | q :: rest => q :: (first_occurrences rest).filter (fun x => x ≠ q)

/-! ### Data model (`core/models.py`)

`datetime` fields are modelled as `Option Unit` (set / not set); they carry no
other information that the claims touch. -/

/-- `ResearchStatus` enum. -/
inductive ResearchStatus where
  | initialized
  | in_progress
  | completed
  | failed
deriving DecidableEq

/-- `ConfidenceLevel` enum. -/
inductive ConfidenceLevel where
  | low
  | medium
  | high
deriving DecidableEq

/-- `SearchQuery` dataclass (timestamp omitted). -/
structure SearchQuery where
  query : String
  rationale : String
  expected_results : String
  iteration : Nat
deriving DecidableEq

/-- `SearchResult` dataclass (timestamp omitted; float score as `Rat`).
Equality/hash in the source are by `url` alone; the dedup logic below
compares urls directly. -/
structure SearchResult where
  url : String
  title : String
  content : String
  snippet : String
  relevance_score : Rat := 0
deriving DecidableEq

/-- `IterationResult` dataclass (timestamp omitted). -/
structure IterationResult where
  iteration_number : Nat
  search_queries : List SearchQuery
  search_results : List SearchResult
  new_sources_count : Nat
  summary_length : Nat
  key_concepts_found : List String
deriving DecidableEq

/-- `ResearchAssessment` dataclass (pydantic delivers the score as `int`). -/
structure ResearchAssessment where
  should_continue : Bool
  completeness_score : Int
  reasoning : String
  missing_aspects : List String := []
  recommended_searches : List String := []
  confidence_level : ConfidenceLevel := ConfidenceLevel.medium
deriving DecidableEq

/-- `ResearchContext` dataclass.  `used_sources` is a Python `set`; it is
modelled as the insertion-ordered list of added urls — the source only ever
uses membership, insertion, and the extent of the set. -/
structure ResearchContext where
  user_question : String
  current_summary : String := ""
  used_sources : List String := []
  iteration_count : Nat := 0
  status : ResearchStatus := ResearchStatus.initialized
  key_concepts_found : List String := []
  research_history : List IterationResult := []
  search_results : List SearchResult := []
  last_assessment : Option ResearchAssessment := none
  end_time : Option Unit := none
deriving DecidableEq

/-- `ResearchContext.add_search_result`: admit a result when its url is new,
recording the url and the result; report whether it was admitted. -/
def ResearchContext.add_search_result (ctx : ResearchContext) (r : SearchResult) :
    ResearchContext × Bool :=
  if r.url ∈ ctx.used_sources then (ctx, false)
  else ({ ctx with used_sources := ctx.used_sources ++ [r.url],
                   search_results := ctx.search_results ++ [r] }, true)

/-- `ResearchContext.get_duration`: defined (`some`) exactly when `end_time`
is set (the numeric value is time data, not modelled). -/
def ResearchContext.get_duration (ctx : ResearchContext) : Option Unit :=
  ctx.end_time

/-- `ResearchResult` dataclass (`metadata` dict as an association list). -/
structure ResearchResult where
  original_question : String
  final_summary : String
  sources_used : List String
  total_sources : Nat
  iterations_completed : Nat
  key_concepts_discovered : List String
  research_history : List IterationResult
  final_assessment : Option ResearchAssessment
  duration_seconds : Option Unit
  status : ResearchStatus
  metadata : List (String × String) := []
deriving DecidableEq

/-- `ResearchResult.from_context`. -/
def ResearchResult.from_context (ctx : ResearchContext) : ResearchResult :=
  { original_question := ctx.user_question,
    final_summary := ctx.current_summary,
    sources_used := ctx.used_sources,
    total_sources := ctx.used_sources.length,
    iterations_completed := ctx.iteration_count,
    key_concepts_discovered := ctx.key_concepts_found,
    research_history := ctx.research_history,
    final_assessment := ctx.last_assessment,
    duration_seconds := ctx.get_duration,
    status := ctx.status }

/-- `ResearchConfig` dataclass (provider glue fields — model name, temperature,
timeout, verbosity, custom prompts — are external wiring and omitted). -/
structure ResearchConfig where
  max_iterations : Nat := 7
  max_search_results_per_query : Nat := 8
  min_completeness_score : Int := 80
  enable_concept_extraction : Bool := true
  enable_source_validation : Bool := true
deriving DecidableEq

/-! ### Helpers (`utils/helpers.py`) -/

/-- `validate_input`: non-empty, at least 3 characters once stripped, and none
of the four injection patterns (matched case-insensitively; the regexes in the
source are all string literals). -/
def validate_input (user_input : String) : Bool :=
  if user_input = "" then false
  else if (pyStrip user_input).length < 3 then false
  else if strContainsSub (pyLower user_input) "<script"
       || strContainsSub (pyLower user_input) "javascript:"
       || strContainsSub (pyLower user_input) "eval("
       || strContainsSub (pyLower user_input) "exec(" then false
  else true

/-- Worker for `merge_overlapping_concepts`: walk the list keeping the first
representative of each lower-cased form. -/
def mergeConceptsGo : List String → List String → List String → List String
  | [], _, acc => acc
  | c :: rest, seen, acc =>
    if (pyLower c) ∈ seen then mergeConceptsGo rest seen acc
    else mergeConceptsGo rest (seen ++ [(pyLower c)]) (acc ++ [c])

/-- `merge_overlapping_concepts`: case-insensitive dedup keeping first-seen
casing and order.  (Defined in `utils/helpers.py`; note that `core/agent.py`
does not call it.) -/
def merge_overlapping_concepts (concepts : List String) : List String :=
  mergeConceptsGo concepts [] []

/-- One-decimal rendering of a score, standing in for the `:.1f` f-string
directive (CPython float formatting is not modelled bit-for-bit; no claim
depends on the rendered digits). -/
def one_decimal (q : Rat) : String :=
  let t : Int := Rat.floor (q * 10)
  toString (t / 10) ++ "." ++ toString ((t % 10).natAbs)

/-- Template body for one result inside `format_search_results`. -/
def formatOneResult (r : SearchResult) : String :=
  pyStrip ("\n**" ++ r.title ++ "**\n" ++ r.content ++ "\n(Source: " ++ r.url ++
    ")\nRelevance: " ++ one_decimal r.relevance_score ++ "%\n")

/-- `format_search_results`: joined, per-result formatted blocks. -/
def format_search_results (results : List SearchResult) : String :=
  if results = [] then ""
  else String.intercalate "\n\n---\n\n" (results.map formatOneResult)

/-! ### Search service (`services/search_service.py`) -/

/-- A raw provider hit: an untyped mapping with heterogeneous key names,
modelled as one optional field per accepted alias (`raw_result.get(k)`). -/
structure RawHit where
  url : Option String := none
  link : Option String := none
  href : Option String := none
  title : Option String := none
  name : Option String := none
  content : Option String := none
  body : Option String := none
  text : Option String := none
  snippet : Option String := none
  summary : Option String := none
deriving DecidableEq

/-- `SearchService._calculate_relevance_score`.  Query words are the distinct
lower-cased whitespace tokens; a word "matches" when it occurs **as a
substring** of the lower-cased `"title content snippet"` text (`word in
all_text` in Python is substring containment). -/
def calculate_relevance_score (query title content snippet : String) : Rat :=
  let query_words := first_occurrences (pySplit (pyLower query))
  let all_text := pyLower (title ++ " " ++ content ++ " " ++ snippet)
  let match_count := (query_words.filter (fun w => strContainsSub all_text w)).length
  let score : Rat :=
    if query_words ≠ [] then ((match_count : Rat) / (query_words.length : Rat)) * 100 else 0
  min score 100

/-- `SearchService._create_search_result`.  Field aliases are resolved by
Python truthy-`or` chains.  The snippet line in the source is
`a or b or content[:200] + "..." if len(content) > 200 else content`,
which by Python precedence parses as
`(a or b or content[:200] + "...") if len(content) > 200 else content`:
for content of 200 characters or fewer the snippet is always the content,
whatever snippet/summary fields the hit carries. -/
def create_search_result (raw : RawHit) (query : String) : Option SearchResult :=
  let url := firstTruthy [raw.url, raw.link, raw.href] ""
  let title := firstTruthy [raw.title, raw.name] "Untitled"
  let content := firstTruthy [raw.content, raw.body, raw.text] ""
  let snippet :=
    if content.length > 200 then
      firstTruthy [raw.snippet, raw.summary] (content.take 200 ++ "...")
    else content
  if url = "" ∨ (content = "" ∧ snippet = "") then none
  else some { url := url, title := title, content := content, snippet := snippet,
              relevance_score := calculate_relevance_score query title content snippet }

/-- `SearchService._process_search_results`: normalize each raw hit, dropping
the ones `_create_search_result` rejects. -/
def process_search_results (raws : List RawHit) (query : String) : List SearchResult :=
  raws.filterMap (fun r => create_search_result r query)

/-! ### Language-model gateway (`services/llm_service.py`)

Each structured model call either parses into its pydantic schema, fails to
parse (`json.JSONDecodeError` / `ValidationError` / missing-field
`ValueError`), or raises some other exception.  The three outcomes are the
`LLMReply` constructors; the per-operation wrappers below implement exactly
the source's `try/except` ladders over them. -/

/-- Outcome of one structured model invocation. -/
inductive LLMReply (α : Type) where
  | ok (a : α)
  | parseError
  | raised (msg : String)
deriving DecidableEq

/-- `SearchStrategyResponse` pydantic schema. -/
structure SearchStrategyResponse where
  search_queries : List String
  research_rationale : String
  expected_findings : String
deriving DecidableEq

/-- `ConceptExtractionResponse` pydantic schema. -/
structure ConceptExtractionResponse where
  key_concepts : List String
deriving DecidableEq

/-- `ComprehensiveSummaryResponse` pydantic schema. -/
structure ComprehensiveSummaryResponse where
  main_answer : String
  key_findings : String := ""
  supporting_evidence : String := ""
  related_concepts : String := ""
  knowledge_gaps : String := ""
  confidence_level : String := ""
deriving DecidableEq

/-- `ResearchCompletenessResponse` pydantic schema. -/
structure ResearchCompletenessResponse where
  should_continue : Bool
  completeness_score : Int
  reasoning : String
  missing_aspects : List String
  recommended_next_searches : List String
deriving DecidableEq

/-- The two external capabilities, as one oracle: every structured model
operation is a function of the data its prompt is built from, and the search
provider maps a query to the raw hits the service layer receives (provider
errors and timeouts are already absorbed to an empty batch by
`execute_search`, which never raises). -/
structure Oracle where
  strategyReply : ResearchContext → LLMReply SearchStrategyResponse
  conceptReply : String → LLMReply ConceptExtractionResponse
  summaryReply : ResearchContext → String → LLMReply ComprehensiveSummaryResponse
  completenessReply : ResearchContext → LLMReply ResearchCompletenessResponse
  rawResults : String → List RawHit

/-- `LLMService.generate_search_strategy`: parse failures (including the
explicit missing-field `ValueError`) fall back to a single query equal to the
original question; any other exception propagates. -/
def generate_search_strategy (o : Oracle) (ctx : ResearchContext) :
    Except String SearchStrategyResponse :=
  match o.strategyReply ctx with
  | LLMReply.ok s => Except.ok s
  | LLMReply.parseError => Except.ok
      { search_queries := [ctx.user_question],
        research_rationale := "Fallback to basic search due to parsing error",
        expected_findings := "Basic information about the topic" }
  | LLMReply.raised e => Except.error e

/-- `LLMService.extract_key_concepts`: empty when extraction is disabled;
every failure (parse or otherwise) is absorbed to the empty list. -/
def extract_key_concepts (cfg : ResearchConfig) (o : Oracle) (content : String) :
    List String :=
  if cfg.enable_concept_extraction = false then []
  else match o.conceptReply content with
    | LLMReply.ok r => r.key_concepts
    | LLMReply.parseError => []
    | LLMReply.raised _ => []

/-- `LLMService.update_summary`.  Blank (`not new_information.strip()`) input
returns `current_summary or ""` without any model call; otherwise one call is
made and every failure is absorbed to the prior summary.  The second component
counts model invocations. -/
def update_summary (o : Oracle) (ctx : ResearchContext) (new_information : String) :
    String × Nat :=
  if pyStrip new_information = "" then (pyStrOr ctx.current_summary "", 0)
  else match o.summaryReply ctx new_information with
    | LLMReply.ok r => (pyStrip r.main_answer, 1)
    | LLMReply.parseError => (pyStrOr ctx.current_summary "", 1)
    | LLMReply.raised _ => (pyStrOr ctx.current_summary "", 1)

/-- `LLMService.assess_research_completeness`: on a parsed reply, derive the
confidence level from the score (≥80 high, ≥60 medium, else low); on a parse
failure return the documented fallback assessment; re-raise anything else. -/
def assess_research_completeness (o : Oracle) (ctx : ResearchContext) :
    Except String ResearchAssessment :=
  match o.completenessReply ctx with
  | LLMReply.ok d =>
      let score := d.completeness_score
      let confidence :=
        if 80 ≤ score then ConfidenceLevel.high
        else if 60 ≤ score then ConfidenceLevel.medium
        else ConfidenceLevel.low
      Except.ok
        { should_continue := d.should_continue,
          completeness_score := score,
          reasoning := d.reasoning,
          missing_aspects := d.missing_aspects,
          recommended_searches := d.recommended_next_searches,
          confidence_level := confidence }
  | LLMReply.parseError =>
      Except.ok
        { should_continue := decide (ctx.iteration_count < 3),
          completeness_score := 50,
          reasoning := "Assessment parsing failed, using fallback logic",
          missing_aspects := [],
          recommended_searches := [],
          confidence_level := ConfidenceLevel.low }
  | LLMReply.raised e => Except.error e

/-- `SearchService.execute_multiple_searches`: run each query and collect the
processed results keyed by query text.  The Python dict keeps one entry per
distinct query text in first-insertion order (re-running a duplicate query
against the deterministic oracle reproduces the same value). -/
def execute_multiple_searches (o : Oracle) (queries : List String) :
    List (String × List SearchResult) :=
  (first_occurrences queries).map (fun q => (q, process_search_results (o.rawResults q) q))

/-! ### Research agent (`core/agent.py`) -/

/-- `ResearchAgent._should_continue_research`: stop at the iteration cap;
always run the first round; then follow the last assessment when one exists,
else allow up to 3 rounds. -/
def should_continue_research (cfg : ResearchConfig) (ctx : ResearchContext) : Bool :=
  if cfg.max_iterations ≤ ctx.iteration_count then false
  else if ctx.iteration_count = 0 then true
  else match ctx.last_assessment with
    | some a => a.should_continue
    | none => decide (ctx.iteration_count < 3)

/-- The `SearchQuery` drafts built from one strategy reply
(`core/agent.py`, lines 139-147). -/
def build_queries (strategy : SearchStrategyResponse) (iter : Nat) : List SearchQuery :=
  strategy.search_queries.map (fun t =>
    { query := t, rationale := strategy.research_rationale,
      expected_results := strategy.expected_findings, iteration := iter })

/-- Admission pass over all results of a round, in query order then result
order (the nested `for` loops at `core/agent.py`, lines 158-163): thread the
context through `add_search_result`, collecting the admitted results. -/
def admitResults (ctx : ResearchContext) : List SearchResult → ResearchContext × List SearchResult
  | [] => (ctx, [])
  | r :: rest =>
    let step := ctx.add_search_result r
    let tail := admitResults step.1 rest
    if step.2 then (tail.1, r :: tail.2) else (tail.1, tail.2)

/-- The concept merge at `core/agent.py`, line 170:
`key_concepts_found.extend([c for c in new_concepts if c not in key_concepts_found])`.
The comprehension is evaluated against the pre-extend list, then appended. -/
def extend_key_concepts (old new : List String) : List String :=
  old ++ new.filter (fun c => decide (c ∉ old))

/-- `"\n".join(r.content for r in new_search_results)`. -/
def combined_content (rs : List SearchResult) : String :=
  String.intercalate "\n" (rs.map (fun r => r.content))

/-- `ResearchAgent._perform_research_iteration`: plan, search, admit new
sources, extract concepts from the new content, and assemble the round's
`IterationResult`.  The only escaping exception inside the round is a
non-parse failure of the strategy call (search and concept extraction absorb
their own errors); on it the context is exactly the input context. -/
def perform_research_iteration (cfg : ResearchConfig) (o : Oracle) (ctx : ResearchContext) :
    Except String (ResearchContext × IterationResult) :=
  match generate_search_strategy o ctx with
  | Except.error e => Except.error e
  | Except.ok strategy =>
    let sqs := build_queries strategy ctx.iteration_count
    let by_query := execute_multiple_searches o (sqs.map (fun q => q.query))
    let flat := (by_query.map (fun p => p.2)).flatten
    let admitted := admitResults ctx flat
    let new_results := admitted.2
    let new_concepts :=
      if new_results = [] then []
      else extract_key_concepts cfg o (combined_content new_results)
    let ctx2 :=
      if new_results = [] then admitted.1
      else { admitted.1 with
             key_concepts_found := extend_key_concepts admitted.1.key_concepts_found new_concepts }
    Except.ok (ctx2,
      { iteration_number := ctx.iteration_count,
        search_queries := sqs,
        search_results := new_results,
        new_sources_count := new_results.length,
        summary_length := ctx.current_summary.length,
        key_concepts_found := new_concepts })

/-- `ResearchAgent._update_research_context`: skip when the round admitted
nothing, else fold the formatted new evidence into the running summary.  The
second component counts summary-model invocations. -/
def update_research_context (o : Oracle) (ctx : ResearchContext) (ir : IterationResult) :
    ResearchContext × Nat :=
  if ir.search_results = [] then (ctx, 0)
  else
    let upd := update_summary o ctx (format_search_results ir.search_results)
    ({ ctx with current_summary := upd.1 }, upd.2)

/-- Result of running the loop: the context at exit (or at the point the
escaping exception was raised — the Python context is mutated in place, so the
`except` block sees every mutation made before the raise), the escaped
exception if any, and how many completeness assessments were performed. -/
structure LoopResult where
  ctx : ResearchContext
  err : Option String
  assessCalls : Nat
deriving DecidableEq

/-- One pass of the `while` body (`core/agent.py`, lines 60-91) after the
guard has passed: `Sum.inl` is an exit from the loop (normal or exceptional),
`Sum.inr` is the updated context for the next round (its pass performed one
assessment). -/
def research_step (cfg : ResearchConfig) (o : Oracle) (ctx0 : ResearchContext) :
    LoopResult ⊕ ResearchContext :=
  let ctx := { ctx0 with iteration_count := ctx0.iteration_count + 1 }
  match perform_research_iteration cfg o ctx with
  | Except.error e => Sum.inl { ctx := ctx, err := some e, assessCalls := 0 }
  | Except.ok (ctx1, ir) =>
    let ctx2 := { ctx1 with research_history := ctx1.research_history ++ [ir] }
    if ir.new_sources_count = 0 then
      Sum.inl { ctx := ctx2, err := none, assessCalls := 0 }
    else
      let ctx3 := (update_research_context o ctx2 ir).1
      match assess_research_completeness o ctx3 with
      | Except.error e => Sum.inl { ctx := ctx3, err := some e, assessCalls := 1 }
      | Except.ok a =>
        let ctx4 := { ctx3 with last_assessment := some a }
        if a.should_continue = false ∨ cfg.min_completeness_score ≤ a.completeness_score then
          Sum.inl { ctx := ctx4, err := none, assessCalls := 1 }
        else Sum.inr ctx4

/-- The `while _should_continue_research` loop.  Fuel-indexed recursion: each
entered round raises `iteration_count` by one and the guard demands
`iteration_count < max_iterations`, so `max_iterations + 1` units of fuel (as
supplied by `conduct_research`) make the zero-fuel branch unreachable. -/
def research_loop (cfg : ResearchConfig) (o : Oracle) : Nat → ResearchContext → LoopResult
  | 0, ctx => { ctx := ctx, err := none, assessCalls := 0 }
  | fuel + 1, ctx =>
    if should_continue_research cfg ctx then
      match research_step cfg o ctx with
      | Sum.inl out => out
      | Sum.inr ctx4 =>
        let t := research_loop cfg o fuel ctx4
        { t with assessCalls := t.assessCalls + 1 }
    else { ctx := ctx, err := none, assessCalls := 0 }

/-- The context `conduct_research` constructs before entering the `try` block. -/
def initial_context (q : String) : ResearchContext :=
  { user_question := q, status := ResearchStatus.in_progress }

/-- `ResearchAgent.conduct_research`: build the context, run the loop, then
finalize — `Completed` with an end time when nothing escaped, else `Failed`
with an end time and the error recorded under the `"error"` metadata key.  A
`ResearchResult` snapshot of the (possibly partial) context is returned in
both cases.  No validation of `user_question` is performed anywhere. -/
def conduct_research (cfg : ResearchConfig) (o : Oracle) (user_question : String) :
    ResearchResult :=
  let lr := research_loop cfg o (cfg.max_iterations + 1) (initial_context user_question)
  match lr.err with
  | none =>
      ResearchResult.from_context
        { lr.ctx with status := ResearchStatus.completed, end_time := some () }
  | some e =>
      let r := ResearchResult.from_context
        { lr.ctx with status := ResearchStatus.failed, end_time := some () }
      { r with metadata := r.metadata ++ [("error", e)] }

/-! ### Specification-side formulas and concrete fixtures

`relevance_token_set_spec` renders the claim's wording of the relevance score
(token-set intersection); `relevance_substring_spec` renders the substring
semantics the code actually implements.  Both are compared against
`calculate_relevance_score` in the theorems below. -/

/-- The relevance formula as the claim words it:
`100 × |queryWords ∩ textWords| / |queryWords|` over lower-cased
whitespace-split token **sets** of the query and of title+content+snippet. -/
def relevance_token_set_spec (query title content snippet : String) : Rat :=
  let qws := first_occurrences (pySplit (pyLower query))
  let tws := first_occurrences (pySplit (pyLower (title ++ " " ++ content ++ " " ++ snippet)))
  if qws = [] then 0
  else ((qws.filter (fun w => decide (w ∈ tws))).length : Rat) * 100 / (qws.length : Rat)

/-- The relevance formula with the substring-match semantics of the source:
a query word counts when it occurs as a substring of the combined
lower-cased text. -/
def relevance_substring_spec (query title content snippet : String) : Rat :=
  let qws := first_occurrences (pySplit (pyLower query))
  let text := pyLower (title ++ " " ++ content ++ " " ++ snippet)
  if qws = [] then 0
  else ((qws.filter (fun w => strContainsSub text w)).length : Rat) * 100 / (qws.length : Rat)

/-- Default configuration (`ResearchConfig()`). -/
def cfgDefault : ResearchConfig := {}

/-- Configuration with a two-round cap. -/
def cfgTwo : ResearchConfig := { max_iterations := 2 }

/-- Baseline oracle: every model reply is unparseable and every search comes
back empty — the regime in which all documented fallbacks fire. -/
def oracleBase : Oracle :=
  { strategyReply := fun _ => LLMReply.parseError,
    conceptReply := fun _ => LLMReply.parseError,
    summaryReply := fun _ _ => LLMReply.parseError,
    completenessReply := fun _ => LLMReply.parseError,
    rawResults := fun _ => [] }

/-- Oracle whose strategy call raises a non-parse exception. -/
def oracleRaise : Oracle :=
  { oracleBase with strategyReply := fun _ => LLMReply.raised "boom" }

/-- Oracle whose plan parses but contains no queries, and whose completeness
call would raise if it were ever made. -/
def oracleEmptyPlan : Oracle :=
  { oracleBase with
    strategyReply := fun _ => LLMReply.ok
      { search_queries := [], research_rationale := "r", expected_findings := "e" },
    completenessReply := fun _ => LLMReply.raised "assessment was invoked" }

/-- One-hit raw batch used by `oracleDup`. -/
def rawHitSimple : RawHit :=
  { url := some "http://s.test/1", content := some "c" }

/-- Oracle staging one admitted source whose concept extraction returns two
case-variants of the same concept, then a stop verdict. -/
def oracleDup : Oracle :=
  { strategyReply := fun _ => LLMReply.ok
      { search_queries := ["q"], research_rationale := "r", expected_findings := "e" },
    conceptReply := fun _ => LLMReply.ok { key_concepts := ["AI", "ai"] },
    summaryReply := fun _ _ => LLMReply.parseError,
    completenessReply := fun _ => LLMReply.ok
      { should_continue := false, completeness_score := 90, reasoning := "done",
        missing_aspects := [], recommended_next_searches := [] },
    rawResults := fun _ => [rawHitSimple] }

/-- Raw hit carrying only a url and a snippet (no content under any alias). -/
def rawSnippetOnly : RawHit :=
  { url := some "http://x.test/1", snippet := some "a useful snippet" }

/-- Raw hit with a short content and an explicit snippet field. -/
def rawShortContent : RawHit :=
  { url := some "http://x.test/2", content := some "short content",
    snippet := some "provided snippet" }

/-- Context for the round-two entry of the loop in the C3 witness. -/
def ctxEmptyRound : ResearchContext := initial_context "w"

/-- `ctxEmptyRound` after the round increments the iteration counter. -/
def ctxEmptyRoundIncr : ResearchContext := { ctxEmptyRound with iteration_count := 1 }

/-- The iteration record produced by an empty-plan round at iteration 1. -/
def irEmptyRound : IterationResult :=
  { iteration_number := 1, search_queries := [], search_results := [],
    new_sources_count := 0, summary_length := 0, key_concepts_found := [] }

/-- Context with a non-empty running summary. -/
def ctxPrev : ResearchContext := { initial_context "q" with current_summary := "prev" }

/-! ### Helper lemmas -/

/-- `add_search_result` admits exactly the unseen urls. -/
lemma add_search_result_admits (ctx : ResearchContext) (r : SearchResult) :
    (ctx.add_search_result r).2 = true ↔ r.url ∉ ctx.used_sources := by
  unfold ResearchContext.add_search_result
  by_cases h : r.url ∈ ctx.used_sources <;> simp [h]

/-- The admission pass touches only `used_sources` and `search_results`. -/
lemma admitResults_preserves : ∀ (rs : List SearchResult) (ctx : ResearchContext),
    (admitResults ctx rs).1.user_question = ctx.user_question ∧
    (admitResults ctx rs).1.current_summary = ctx.current_summary ∧
    (admitResults ctx rs).1.iteration_count = ctx.iteration_count ∧
    (admitResults ctx rs).1.status = ctx.status ∧
    (admitResults ctx rs).1.key_concepts_found = ctx.key_concepts_found ∧
    (admitResults ctx rs).1.research_history = ctx.research_history ∧
    (admitResults ctx rs).1.last_assessment = ctx.last_assessment ∧
    (admitResults ctx rs).1.end_time = ctx.end_time := by
  intro rs
  induction rs with
  | nil => intro ctx; simp [admitResults]
  | cons r rest ih =>
    intro ctx
    by_cases h : r.url ∈ ctx.used_sources
    · simpa [admitResults, ResearchContext.add_search_result, h] using ih ctx
    · simpa [admitResults, ResearchContext.add_search_result, h] using
        ih { ctx with used_sources := ctx.used_sources ++ [r.url],
                      search_results := ctx.search_results ++ [r] }

/-- Unfolding: a result whose url was already seen is skipped. -/
lemma admitResults_cons_seen (r : SearchResult) (rest : List SearchResult)
    (ctx : ResearchContext) (h : r.url ∈ ctx.used_sources) :
    admitResults ctx (r :: rest) = admitResults ctx rest := by
  simp [admitResults, ResearchContext.add_search_result, h]

/-- Unfolding: a fresh result is admitted and the pass continues on the
extended context. -/
lemma admitResults_cons_new (r : SearchResult) (rest : List SearchResult)
    (ctx : ResearchContext) (h : r.url ∉ ctx.used_sources) :
    admitResults ctx (r :: rest) =
      ((admitResults { ctx with used_sources := ctx.used_sources ++ [r.url],
                                search_results := ctx.search_results ++ [r] } rest).1,
       r :: (admitResults { ctx with used_sources := ctx.used_sources ++ [r.url],
                                     search_results := ctx.search_results ++ [r] } rest).2) := by
  simp [admitResults, ResearchContext.add_search_result, h]

/-- Core bookkeeping of the admission pass: the admitted results extend
`search_results`, their urls extend `used_sources` in order and without
duplicates, the url extent grows by exactly the submitted urls, and every
admitted result was fresh and came from the input batch. -/
lemma admitResults_main : ∀ (rs : List SearchResult) (ctx : ResearchContext),
    (admitResults ctx rs).1.used_sources
      = ctx.used_sources ++ ((admitResults ctx rs).2.map SearchResult.url) ∧
    (admitResults ctx rs).1.search_results
      = ctx.search_results ++ (admitResults ctx rs).2 ∧
    (∀ u, u ∈ (admitResults ctx rs).1.used_sources ↔
      u ∈ ctx.used_sources ∨ u ∈ rs.map SearchResult.url) ∧
    ((admitResults ctx rs).2.map SearchResult.url).Nodup ∧
    (∀ r, r ∈ (admitResults ctx rs).2 → r.url ∉ ctx.used_sources) ∧
    (∀ r, r ∈ (admitResults ctx rs).2 → r ∈ rs) := by
  intro rs
  induction rs with
  | nil => intro ctx; simp [admitResults]
  | cons r rest ih =>
    intro ctx
    by_cases h : r.url ∈ ctx.used_sources
    · rw [admitResults_cons_seen r rest ctx h]
      obtain ⟨h1, h2, h3, h4, h5, h6⟩ := ih ctx
      refine ⟨h1, h2, ?_, h4, h5, fun a ha => List.mem_cons_of_mem _ (h6 a ha)⟩
      intro u
      rw [h3 u]
      simp only [List.map_cons, List.mem_cons]
      constructor
      · rintro (hl | hr)
        · exact Or.inl hl
        · exact Or.inr (Or.inr hr)
      · rintro (hl | rfl | hr)
        · exact Or.inl hl
        · exact Or.inl h
        · exact Or.inr hr
    · rw [admitResults_cons_new r rest ctx h]
      obtain ⟨h1, h2, h3, h4, h5, h6⟩ :=
        ih { ctx with used_sources := ctx.used_sources ++ [r.url],
                      search_results := ctx.search_results ++ [r] }
      refine ⟨?_, ?_, ?_, ?_, ?_, ?_⟩
      · simpa [List.append_assoc] using h1
      · simpa [List.append_assoc] using h2
      · intro u
        rw [show (((admitResults { ctx with
              used_sources := ctx.used_sources ++ [r.url],
              search_results := ctx.search_results ++ [r] } rest).1,
            r :: (admitResults { ctx with
              used_sources := ctx.used_sources ++ [r.url],
              search_results := ctx.search_results ++ [r] } rest).2).1.used_sources)
          = (admitResults { ctx with
              used_sources := ctx.used_sources ++ [r.url],
              search_results := ctx.search_results ++ [r] } rest).1.used_sources from rfl,
          h3 u]
        simp only [List.mem_append, List.mem_singleton, List.map_cons, List.mem_cons]
        tauto
      · refine List.nodup_cons.mpr ⟨?_, h4⟩
        intro hmem
        rcases List.mem_map.mp hmem with ⟨a, ha, hurl⟩
        have h5a := h5 a ha
        simp only [List.mem_append, List.mem_singleton] at h5a
        exact h5a (Or.inr hurl)
      · intro a ha
        rcases List.mem_cons.mp ha with rfl | ha'
        · exact h
        · have h5a := h5 a ha'
          simp only [List.mem_append] at h5a
          exact fun hmem => h5a (Or.inl hmem)
      · intro a ha
        rcases List.mem_cons.mp ha with rfl | ha'
        · exact List.mem_cons_self _ _
        · exact List.mem_cons_of_mem _ (h6 a ha')

/-- A successful round changes only the source lists and concept list of the
context: question, summary, iteration counter, status, history, assessment
and end time come through unchanged. -/
lemma perform_research_iteration_preserves (cfg : ResearchConfig) (o : Oracle)
    (ctx c : ResearchContext) (ir : IterationResult)
    (h : perform_research_iteration cfg o ctx = Except.ok (c, ir)) :
    c.user_question = ctx.user_question ∧ c.current_summary = ctx.current_summary ∧
    c.iteration_count = ctx.iteration_count ∧ c.status = ctx.status ∧
    c.research_history = ctx.research_history ∧ c.last_assessment = ctx.last_assessment ∧
    c.end_time = ctx.end_time := by
  unfold perform_research_iteration at h
  cases hs : generate_search_strategy o ctx with
  | error e => rw [hs] at h; exact absurd h (by simp)
  | ok strategy =>
    rw [hs] at h
    simp only [Except.ok.injEq, Prod.mk.injEq] at h
    obtain ⟨hc, -⟩ := h
    obtain ⟨p1, p2, p3, p4, p5, p6, p7, p8⟩ := admitResults_preserves
      ((((execute_multiple_searches o ((build_queries strategy ctx.iteration_count).map
        (fun q => q.query))).map (fun p => p.2)).flatten)) ctx
    by_cases hn : (admitResults ctx (((execute_multiple_searches o
        ((build_queries strategy ctx.iteration_count).map (fun q => q.query))).map
        (fun p => p.2)).flatten)).2 = []
    · rw [if_pos hn] at hc
      subst hc
      exact ⟨p1, p2, p3, p4, p6, p7, p8⟩
    · rw [if_neg hn] at hc
      subst hc
      exact ⟨p1, p2, p3, p4, p6, p7, p8⟩

/-- The summary fold changes only `current_summary`. -/
lemma update_research_context_preserves (o : Oracle) (ctx : ResearchContext)
    (ir : IterationResult) :
    (update_research_context o ctx ir).1.user_question = ctx.user_question ∧
    (update_research_context o ctx ir).1.used_sources = ctx.used_sources ∧
    (update_research_context o ctx ir).1.iteration_count = ctx.iteration_count ∧
    (update_research_context o ctx ir).1.status = ctx.status ∧
    (update_research_context o ctx ir).1.key_concepts_found = ctx.key_concepts_found ∧
    (update_research_context o ctx ir).1.research_history = ctx.research_history ∧
    (update_research_context o ctx ir).1.last_assessment = ctx.last_assessment ∧
    (update_research_context o ctx ir).1.end_time = ctx.end_time := by
  unfold update_research_context
  by_cases h : ir.search_results = [] <;> simp [h]


/-- A round that exits the loop leaves the context one iteration further on,
with the question unchanged. -/
lemma research_step_inl_fields (cfg : ResearchConfig) (o : Oracle)
    (ctx : ResearchContext) (out : LoopResult)
    (h : research_step cfg o ctx = Sum.inl out) :
    out.ctx.iteration_count = ctx.iteration_count + 1 ∧
    out.ctx.user_question = ctx.user_question := by
  simp only [research_step] at h
  cases hp : perform_research_iteration cfg o
      { ctx with iteration_count := ctx.iteration_count + 1 } with
  | error e =>
    rw [hp] at h
    simp only [Sum.inl.injEq] at h
    subst h
    exact ⟨rfl, rfl⟩
  | ok pr =>
    obtain ⟨c1, ir⟩ := pr
    obtain ⟨q1, q2, q3, q4, q5, q6, q7⟩ :=
      perform_research_iteration_preserves cfg o _ c1 ir hp
    rw [hp] at h
    simp only at h
    obtain ⟨u1, u2, u3, u4, u5, u6, u7, u8⟩ :=
      update_research_context_preserves o
        { c1 with research_history := c1.research_history ++ [ir] } ir
    by_cases hz : ir.new_sources_count = 0
    · rw [if_pos hz] at h
      simp only [Sum.inl.injEq] at h
      subst h
      exact ⟨q3, q1⟩
    · rw [if_neg hz] at h
      cases ha : assess_research_completeness o
          (update_research_context o
            { c1 with research_history := c1.research_history ++ [ir] } ir).1 with
      | error e =>
        rw [ha] at h
        simp only [Sum.inl.injEq] at h
        subst h
        exact ⟨u3.trans q3, u1.trans q1⟩
      | ok a =>
        rw [ha] at h
        simp only at h
        by_cases hstop : a.should_continue = false ∨
            cfg.min_completeness_score ≤ a.completeness_score
        · rw [if_pos hstop] at h
          simp only [Sum.inl.injEq] at h
          subst h
          exact ⟨u3.trans q3, u1.trans q1⟩
        · rw [if_neg hstop] at h
          exact absurd h (by simp)

/-- A round that continues the loop hands over a context one iteration
further on, with the question unchanged. -/
lemma research_step_inr_fields (cfg : ResearchConfig) (o : Oracle)
    (ctx c : ResearchContext)
    (h : research_step cfg o ctx = Sum.inr c) :
    c.iteration_count = ctx.iteration_count + 1 ∧
    c.user_question = ctx.user_question := by
  simp only [research_step] at h
  cases hp : perform_research_iteration cfg o
      { ctx with iteration_count := ctx.iteration_count + 1 } with
  | error e => rw [hp] at h; exact absurd h (by simp)
  | ok pr =>
    obtain ⟨c1, ir⟩ := pr
    obtain ⟨q1, q2, q3, q4, q5, q6, q7⟩ :=
      perform_research_iteration_preserves cfg o _ c1 ir hp
    rw [hp] at h
    simp only at h
    obtain ⟨u1, u2, u3, u4, u5, u6, u7, u8⟩ :=
      update_research_context_preserves o
        { c1 with research_history := c1.research_history ++ [ir] } ir
    by_cases hz : ir.new_sources_count = 0
    · rw [if_pos hz] at h; exact absurd h (by simp)
    · rw [if_neg hz] at h
      cases ha : assess_research_completeness o
          (update_research_context o
            { c1 with research_history := c1.research_history ++ [ir] } ir).1 with
      | error e => rw [ha] at h; exact absurd h (by simp)
      | ok a =>
        rw [ha] at h
        simp only at h
        by_cases hstop : a.should_continue = false ∨
            cfg.min_completeness_score ≤ a.completeness_score
        · rw [if_pos hstop] at h; exact absurd h (by simp)
        · rw [if_neg hstop] at h
          simp only [Sum.inr.injEq] at h
          subst h
          exact ⟨u3.trans q3, u1.trans q1⟩

/-- A passing guard means the iteration cap is not yet reached. -/
lemma should_continue_lt (cfg : ResearchConfig) (ctx : ResearchContext)
    (h : should_continue_research cfg ctx = true) :
    ctx.iteration_count < cfg.max_iterations := by
  unfold should_continue_research at h
  by_cases h1 : cfg.max_iterations ≤ ctx.iteration_count
  · rw [if_pos h1] at h; exact absurd h (by simp)
  · omega

/-- The loop never decreases the iteration counter. -/
lemma research_loop_count_mono (cfg : ResearchConfig) (o : Oracle) :
    ∀ (fuel : Nat) (ctx : ResearchContext),
      ctx.iteration_count ≤ (research_loop cfg o fuel ctx).ctx.iteration_count := by
  intro fuel
  induction fuel with
  | zero => intro ctx; simp [research_loop]
  | succ n ih =>
    intro ctx
    simp only [research_loop]
    by_cases hg : should_continue_research cfg ctx = true
    · rw [if_pos hg]
      cases hstep : research_step cfg o ctx with
      | inl out =>
        have := (research_step_inl_fields cfg o ctx out hstep).1
        simp only []
        omega
      | inr c =>
        have h1 := (research_step_inr_fields cfg o ctx c hstep).1
        have h2 := ih c
        simp only []
        omega
    · rw [if_neg hg]

/-- The loop never pushes the iteration counter past the cap. -/
lemma research_loop_count_le (cfg : ResearchConfig) (o : Oracle) :
    ∀ (fuel : Nat) (ctx : ResearchContext),
      ctx.iteration_count ≤ cfg.max_iterations →
      (research_loop cfg o fuel ctx).ctx.iteration_count ≤ cfg.max_iterations := by
  intro fuel
  induction fuel with
  | zero => intro ctx hle; simpa [research_loop] using hle
  | succ n ih =>
    intro ctx hle
    simp only [research_loop]
    by_cases hg : should_continue_research cfg ctx = true
    · rw [if_pos hg]
      have hlt := should_continue_lt cfg ctx hg
      cases hstep : research_step cfg o ctx with
      | inl out =>
        have := (research_step_inl_fields cfg o ctx out hstep).1
        simp only []
        omega
      | inr c =>
        have h1 := (research_step_inr_fields cfg o ctx c hstep).1
        have h2 := ih c (by omega)
        simp only []
        omega
    · rw [if_neg hg]; exact hle

/-- Entering the loop performs at least one round. -/
lemma research_loop_enters (cfg : ResearchConfig) (o : Oracle) (fuel : Nat)
    (ctx : ResearchContext) (hg : should_continue_research cfg ctx = true) :
    ctx.iteration_count + 1 ≤ (research_loop cfg o (fuel + 1) ctx).ctx.iteration_count := by
  simp only [research_loop]
  rw [if_pos hg]
  cases hstep : research_step cfg o ctx with
  | inl out =>
    have := (research_step_inl_fields cfg o ctx out hstep).1
    simp only []
    omega
  | inr c =>
    have h1 := (research_step_inr_fields cfg o ctx c hstep).1
    have h2 := research_loop_count_mono cfg o fuel c
    simp only []
    omega

/-- The loop leaves the question unchanged. -/
lemma research_loop_question (cfg : ResearchConfig) (o : Oracle) :
    ∀ (fuel : Nat) (ctx : ResearchContext),
      (research_loop cfg o fuel ctx).ctx.user_question = ctx.user_question := by
  intro fuel
  induction fuel with
  | zero => intro ctx; simp [research_loop]
  | succ n ih =>
    intro ctx
    simp only [research_loop]
    by_cases hg : should_continue_research cfg ctx = true
    · rw [if_pos hg]
      cases hstep : research_step cfg o ctx with
      | inl out =>
        have := (research_step_inl_fields cfg o ctx out hstep).2
        simpa using this
      | inr c =>
        have h1 := (research_step_inr_fields cfg o ctx c hstep).2
        have h2 := ih c
        simp only []
        rw [h2, h1]
    · rw [if_neg hg]

/-- The guard passes on a fresh context whenever at least one round is
allowed. -/
lemma should_continue_initial (cfg : ResearchConfig) (q : String)
    (h : 1 ≤ cfg.max_iterations) :
    should_continue_research cfg (initial_context q) = true := by
  unfold should_continue_research initial_context
  simp only []
  rw [if_neg (by simpa using by omega : ¬ cfg.max_iterations ≤ (0 : Nat))]
  simp

/-- `conduct_research` reports the loop's final iteration counter. -/
lemma conduct_research_iterations (cfg : ResearchConfig) (o : Oracle) (q : String) :
    (conduct_research cfg o q).iterations_completed
      = (research_loop cfg o (cfg.max_iterations + 1) (initial_context q)).ctx.iteration_count := by
  unfold conduct_research
  cases h : (research_loop cfg o (cfg.max_iterations + 1) (initial_context q)).err with
  | none => simp [h, ResearchResult.from_context]
  | some e => simp [h, ResearchResult.from_context]

/-! ### Claim theorems -/

/-- C1: `_should_continue_research` returns true exactly when the iteration
cap is not reached and (this is the first round, or a present last assessment
says to continue, or no assessment exists yet and fewer than 3 rounds have
run); consequently every run with `max_iterations ≥ 1` performs at least one
round, and after any run `iterations_completed ≤ max_iterations`. -/
theorem should_continue_guard_and_bounds :
    (∀ (cfg : ResearchConfig) (ctx : ResearchContext),
      should_continue_research cfg ctx = true ↔
        (ctx.iteration_count < cfg.max_iterations ∧
          (ctx.iteration_count = 0 ∨
            (∃ a, ctx.last_assessment = some a ∧ a.should_continue = true) ∨
            (ctx.last_assessment = none ∧ ctx.iteration_count < 3)))) ∧
    (∀ (cfg : ResearchConfig) (o : Oracle) (q : String),
      1 ≤ cfg.max_iterations → 1 ≤ (conduct_research cfg o q).iterations_completed) ∧
    (∀ (cfg : ResearchConfig) (o : Oracle) (q : String),
      (conduct_research cfg o q).iterations_completed ≤ cfg.max_iterations) := by
  refine ⟨?_, ?_, ?_⟩
  · intro cfg ctx
    unfold should_continue_research
    by_cases h1 : cfg.max_iterations ≤ ctx.iteration_count
    · rw [if_pos h1]
      constructor
      · intro hh; exact absurd hh (by simp)
      · rintro ⟨hlt, -⟩; exact absurd hlt (by omega)
    · rw [if_neg h1]
      by_cases h2 : ctx.iteration_count = 0
      · rw [if_pos h2]
        constructor
        · intro _; exact ⟨by omega, Or.inl h2⟩
        · intro _; rfl
      · rw [if_neg h2]
        cases ha : ctx.last_assessment with
        | some a =>
          constructor
          · intro hh; exact ⟨by omega, Or.inr (Or.inl ⟨a, rfl, hh⟩)⟩
          · rintro ⟨-, hc | ⟨b, hb, hsc⟩ | ⟨hnone, -⟩⟩
            · exact absurd hc h2
            · rcases Option.some.inj hb with rfl; exact hsc
            · exact absurd hnone (by simp)
        | none =>
          simp only [decide_eq_true_eq]
          constructor
          · intro h3; exact ⟨by omega, Or.inr (Or.inr ⟨by trivial, h3⟩)⟩
          · rintro ⟨-, hc | ⟨b, hb, -⟩ | ⟨-, h3⟩⟩
            · exact absurd hc h2
            · exact absurd hb (by simp)
            · exact h3
  · intro cfg o q h
    rw [conduct_research_iterations]
    have hg := should_continue_initial cfg q h
    have h2 := research_loop_enters cfg o cfg.max_iterations (initial_context q) hg
    simpa [initial_context] using h2
  · intro cfg o q
    rw [conduct_research_iterations]
    exact research_loop_count_le cfg o _ _ (by simp [initial_context])

/-- Witness for C1 at a concrete configuration and oracle. -/
theorem should_continue_guard_and_bounds_witness :
    1 ≤ cfgTwo.max_iterations ∧
    1 ≤ (conduct_research cfgTwo oracleBase "q").iterations_completed :=
  ⟨by decide, should_continue_guard_and_bounds.2.1 cfgTwo oracleBase "q" (by decide)⟩

/-- C2: over one run, `add_search_result` admits a result exactly when its
url is unseen; the admitted results are exactly `search_results`, their urls
are exactly `used_sources` and contain no duplicate, and the url extent is
that of the submitted batch — a second result with an already-admitted url is
rejected whatever its other fields. -/
theorem add_search_result_dedup :
    (∀ (ctx : ResearchContext) (r : SearchResult),
      (ctx.add_search_result r).2 = true ↔ r.url ∉ ctx.used_sources) ∧
    (∀ (q : String) (rs : List SearchResult),
      (admitResults (initial_context q) rs).1.search_results
          = (admitResults (initial_context q) rs).2 ∧
      (admitResults (initial_context q) rs).1.used_sources
          = ((admitResults (initial_context q) rs).2).map SearchResult.url ∧
      (((admitResults (initial_context q) rs).2).map SearchResult.url).Nodup ∧
      (∀ u, u ∈ (admitResults (initial_context q) rs).1.used_sources ↔
          u ∈ rs.map SearchResult.url)) := by
  refine ⟨add_search_result_admits, ?_⟩
  intro q rs
  obtain ⟨h1, h2, h3, h4, h5, h6⟩ := admitResults_main rs (initial_context q)
  refine ⟨?_, ?_, h4, ?_⟩
  · simpa [initial_context] using h2
  · simpa [initial_context] using h1
  · intro u
    have := h3 u
    simpa [initial_context] using this

/-- C5: a parse failure of the completeness call yields exactly the
documented fallback assessment — continue only below 3 iterations, score 50,
low confidence, empty lists — and does not raise. -/
theorem assess_completeness_fallback (o : Oracle) (ctx : ResearchContext)
    (h : o.completenessReply ctx = LLMReply.parseError) :
    assess_research_completeness o ctx = Except.ok
      { should_continue := decide (ctx.iteration_count < 3),
        completeness_score := 50,
        reasoning := "Assessment parsing failed, using fallback logic",
        missing_aspects := [],
        recommended_searches := [],
        confidence_level := ConfidenceLevel.low } := by
  unfold assess_research_completeness
  rw [h]

/-- Witness for C5 on the baseline oracle and a fresh context. -/
theorem assess_completeness_fallback_witness :
    oracleBase.completenessReply (initial_context "q") = LLMReply.parseError ∧
    assess_research_completeness oracleBase (initial_context "q") = Except.ok
      { should_continue := true, completeness_score := 50,
        reasoning := "Assessment parsing failed, using fallback logic",
        missing_aspects := [], recommended_searches := [],
        confidence_level := ConfidenceLevel.low } :=
  ⟨rfl, assess_completeness_fallback oracleBase (initial_context "q") rfl⟩

/-- C10: blank (empty or all-whitespace) new information makes
`update_summary` return the current summary unchanged with zero model
invocations. -/
theorem update_summary_blank_noop (o : Oracle) (ctx : ResearchContext) (s : String)
    (h : pyStrip s = "") :
    update_summary o ctx s = (ctx.current_summary, 0) := by
  unfold update_summary
  rw [if_pos h]
  by_cases hc : ctx.current_summary = "" <;> simp [pyStrOr, hc]

/-- Witness for C10 on a whitespace-only string and a context with a prior
summary. -/
theorem update_summary_blank_noop_witness :
    pyStrip " \t\n" = "" ∧ update_summary oracleBase ctxPrev " \t\n" = ("prev", 0) :=
  ⟨by decide, update_summary_blank_noop oracleBase ctxPrev " \t\n" (by decide)⟩

/-- C3: a round whose admitted count is zero ends the run right there — the
loop returns with that round appended to the history, performs no
completeness assessment (zero assessment calls), leaves `last_assessment`
untouched, and starts no further round (the counter advanced exactly once). -/
theorem empty_round_short_circuit (cfg : ResearchConfig) (o : Oracle) (fuel : Nat)
    (ctx ctxIter : ResearchContext) (ir : IterationResult)
    (hgo : should_continue_research cfg ctx = true)
    (hperf : perform_research_iteration cfg o
      { ctx with iteration_count := ctx.iteration_count + 1 } = Except.ok (ctxIter, ir))
    (hzero : ir.new_sources_count = 0) :
    research_loop cfg o (fuel + 1) ctx =
      { ctx := { ctxIter with research_history := ctxIter.research_history ++ [ir] },
        err := none, assessCalls := 0 } ∧
    ctxIter.last_assessment = ctx.last_assessment ∧
    ctxIter.research_history = ctx.research_history ∧
    ctxIter.iteration_count = ctx.iteration_count + 1 := by
  obtain ⟨q1, q2, q3, q4, q5, q6, q7⟩ :=
    perform_research_iteration_preserves cfg o _ ctxIter ir hperf
  refine ⟨?_, q6, q5, q3⟩
  simp only [research_loop]
  rw [if_pos hgo]
  simp only [research_step]
  rw [hperf]
  simp only []
  rw [if_pos hzero]

/-- Witness for C3: a round with an empty plan admits nothing; the loop stops
there with one history record and zero assessment calls, although the staged
completeness reply would have raised had it been invoked. -/
theorem empty_round_short_circuit_witness :
    research_loop cfgDefault oracleEmptyPlan 4 ctxEmptyRound =
      { ctx := { ctxEmptyRoundIncr with research_history := [irEmptyRound] },
        err := none, assessCalls := 0 } ∧
    ctxEmptyRoundIncr.last_assessment = none := by
  have h := empty_round_short_circuit cfgDefault oracleEmptyPlan 3 ctxEmptyRound
    ctxEmptyRoundIncr irEmptyRound rfl rfl rfl
  exact ⟨h.1, rfl⟩

/-- C4: whatever the oracle does, `conduct_research` returns a
`ResearchResult` snapshotting the loop's exit context — the history, summary,
sources and assessment accumulated up to the exit (or failure) point — with
an end time set; absent an escaped exception the status is `Completed` with
empty metadata, and an escaped exception yields status `Failed` with the
error recorded under the `"error"` metadata key. -/
theorem graceful_result (cfg : ResearchConfig) (o : Oracle) (q : String)
    (lr : LoopResult)
    (hlr : research_loop cfg o (cfg.max_iterations + 1) (initial_context q) = lr) :
    (conduct_research cfg o q).original_question = q ∧
    (conduct_research cfg o q).final_summary = lr.ctx.current_summary ∧
    (conduct_research cfg o q).research_history = lr.ctx.research_history ∧
    (conduct_research cfg o q).sources_used = lr.ctx.used_sources ∧
    (conduct_research cfg o q).final_assessment = lr.ctx.last_assessment ∧
    (conduct_research cfg o q).iterations_completed = lr.ctx.iteration_count ∧
    (conduct_research cfg o q).duration_seconds = some () ∧
    (lr.err = none → (conduct_research cfg o q).status = ResearchStatus.completed ∧
      (conduct_research cfg o q).metadata = []) ∧
    (∀ e, lr.err = some e → (conduct_research cfg o q).status = ResearchStatus.failed ∧
      (conduct_research cfg o q).metadata = [("error", e)]) := by
  have hq : lr.ctx.user_question = q := by
    rw [← hlr]
    simpa [initial_context] using
      research_loop_question cfg o (cfg.max_iterations + 1) (initial_context q)
  unfold conduct_research
  rw [hlr]
  cases herr : lr.err with
  | none => simp [ResearchResult.from_context, ResearchContext.get_duration, hq, herr]
  | some e => simp [ResearchResult.from_context, ResearchContext.get_duration, hq, herr]

/-- Witness for C4: a strategy call that raises in round one still produces a
result, with failed status and the error annotated. -/
theorem graceful_result_witness :
    (conduct_research cfgTwo oracleRaise "q").status = ResearchStatus.failed ∧
    (conduct_research cfgTwo oracleRaise "q").metadata = [("error", "boom")] := by
  have h := graceful_result cfgTwo oracleRaise "q"
    (research_loop cfgTwo oracleRaise (cfgTwo.max_iterations + 1) (initial_context "q")) rfl
  exact h.2.2.2.2.2.2.2.2 "boom" rfl

/-- `conduct_research` carries the question into the result verbatim. -/
lemma conduct_research_question (cfg : ResearchConfig) (o : Oracle) (q : String) :
    (conduct_research cfg o q).original_question = q := by
  have hq := research_loop_question cfg o (cfg.max_iterations + 1) (initial_context q)
  unfold conduct_research
  generalize hlr : research_loop cfg o (cfg.max_iterations + 1) (initial_context q) = lr
  rw [hlr] at hq
  cases herr : lr.err with
  | none => simpa [herr, ResearchResult.from_context, initial_context] using hq
  | some e => simpa [herr, ResearchResult.from_context, initial_context] using hq

/-- Counterexample to C6 as stated: the code scores by substring occurrence,
not token-set intersection — the query word `cat` never appears as a token of
`concatenation` yet scores 100. -/
theorem relevance_token_set_counterexample :
    calculate_relevance_score "cat" "concatenation" "" "" = 100 ∧
    relevance_token_set_spec "cat" "concatenation" "" "" = 0 := by
  constructor
  · simp only [calculate_relevance_score]
    rw [show first_occurrences (pySplit (pyLower "cat")) = ["cat"] from rfl]
    rw [show pyLower ("concatenation" ++ " " ++ "" ++ " " ++ "") = "concatenation  "
      from rfl]
    rw [show List.filter (fun w => strContainsSub "concatenation  " w) ["cat"] = ["cat"]
      from rfl]
    norm_num
  · simp only [relevance_token_set_spec]
    rw [show first_occurrences (pySplit (pyLower "cat")) = ["cat"] from rfl]
    rw [show first_occurrences
        (pySplit (pyLower ("concatenation" ++ " " ++ "" ++ " " ++ "")))
      = ["concatenation"] from rfl]
    rw [show List.filter (fun w => decide (w ∈ ["concatenation"])) ["cat"] = []
      from rfl]
    norm_num

/-- C6 as amended: the relevance score equals `100 × matched / |queryWords|`
where a query word matches when it occurs as a substring of the combined
lower-cased text; it is 0 for a word-free query, and always within
`[0, 100]` (the `min` cap never lowers the raw value). -/
theorem relevance_substring_semantics (q t c s : String) :
    calculate_relevance_score q t c s = relevance_substring_spec q t c s ∧
    0 ≤ calculate_relevance_score q t c s ∧
    calculate_relevance_score q t c s ≤ 100 := by
  simp only [calculate_relevance_score, relevance_substring_spec]
  by_cases hq : first_occurrences (pySplit (pyLower q)) = []
  · simp [hq]
  · have hq' : first_occurrences (pySplit (pyLower q)) ≠ [] := hq
    rw [if_pos hq', if_neg hq]
    have hlen : 0 < (first_occurrences (pySplit (pyLower q))).length :=
      List.length_pos.mpr hq
    have hn : (0 : Rat) < ((first_occurrences (pySplit (pyLower q))).length : Rat) := by
      exact_mod_cast hlen
    have hmle : ((first_occurrences (pySplit (pyLower q))).filter
        (fun w => strContainsSub (pyLower (t ++ " " ++ c ++ " " ++ s)) w)).length
        ≤ (first_occurrences (pySplit (pyLower q))).length :=
      List.length_filter_le _ _
    have hdiv : (((first_occurrences (pySplit (pyLower q))).filter
          (fun w => strContainsSub (pyLower (t ++ " " ++ c ++ " " ++ s)) w)).length : Rat)
          / ((first_occurrences (pySplit (pyLower q))).length : Rat) ≤ 1 := by
      rw [div_le_one hn]
      exact_mod_cast hmle
    have hle : (((first_occurrences (pySplit (pyLower q))).filter
          (fun w => strContainsSub (pyLower (t ++ " " ++ c ++ " " ++ s)) w)).length : Rat)
          / ((first_occurrences (pySplit (pyLower q))).length : Rat) * 100 ≤ 100 := by
      nlinarith
    have hnn : (0 : Rat) ≤ (((first_occurrences (pySplit (pyLower q))).filter
          (fun w => strContainsSub (pyLower (t ++ " " ++ c ++ " " ++ s)) w)).length : Rat)
          / ((first_occurrences (pySplit (pyLower q))).length : Rat) * 100 := by
      positivity
    refine ⟨?_, ?_, ?_⟩
    · rw [min_eq_left hle, div_mul_eq_mul_div]
    · rw [min_eq_left hle]; exact hnn
    · exact min_le_right _ _

/-- Counterexample to C7 as stated: the empty question fails
`validate_input`, yet `conduct_research` creates a context, runs a round and
completes normally — no rejection, no validation error. -/
theorem no_input_validation_counterexample :
    validate_input "" = false ∧
    (conduct_research cfgDefault oracleBase "").status = ResearchStatus.completed ∧
    (conduct_research cfgDefault oracleBase "").iterations_completed = 1 :=
  ⟨rfl, rfl, rfl⟩

/-- C7 as amended: `conduct_research` performs no input validation — even a
question the `validate_input` helper rejects is researched: the context is
created, at least one round runs, and the question lands in the result. -/
theorem research_proceeds_without_validation (cfg : ResearchConfig) (o : Oracle)
    (q : String) (hq : validate_input q = false) (h : 1 ≤ cfg.max_iterations) :
    (conduct_research cfg o q).original_question = q ∧
    1 ≤ (conduct_research cfg o q).iterations_completed := by
  refine ⟨conduct_research_question cfg o q, ?_⟩
  rw [conduct_research_iterations]
  have hg := should_continue_initial cfg q h
  have h2 := research_loop_enters cfg o cfg.max_iterations (initial_context q) hg
  simpa [initial_context] using h2

/-- Witness for the amended C7 at the empty question. -/
theorem research_proceeds_without_validation_witness :
    validate_input "" = false ∧
    (conduct_research cfgDefault oracleBase "").original_question = "" :=
  ⟨by decide,
    (research_proceeds_without_validation cfgDefault oracleBase "" (by decide) (by decide)).1⟩

/-- C8 failing inputs, evaluated: a hit with a url and a snippet but no
content is discarded outright, and a provided snippet field is overridden by
a short content — the `or`-chain for snippet aliases is dead whenever the
resolved content has at most 200 characters, because the conditional
expression binds the whole chain. -/
theorem snippet_alias_ignored :
    create_search_result rawSnippetOnly "test" = none ∧
    rawSnippetOnly.url = some "http://x.test/1" ∧
    rawSnippetOnly.snippet = some "a useful snippet" ∧
    (create_search_result rawShortContent "test").map (fun r => r.snippet)
      = some "short content" ∧
    rawShortContent.snippet = some "provided snippet" :=
  ⟨rfl, rfl, rfl, rfl, rfl⟩

/-- Counterexample to C9 as stated: a run whose concept extraction returns
`["AI", "ai"]` ends with both case-variants in `keyConcepts` — the merge at
`core/agent.py` line 170 deduplicates case-sensitively, and the
case-insensitive `merge_overlapping_concepts` helper is never invoked. -/
theorem concept_dedup_case_sensitive_counterexample :
    (conduct_research cfgDefault oracleDup "q").key_concepts_discovered = ["AI", "ai"] ∧
    pyLower "AI" = pyLower "ai" :=
  ⟨rfl, rfl⟩

/-- C9 as amended: the merge appends, in order, exactly the new concepts not
already literally present; so keyConcepts stays duplicate-free under exact
string equality provided each extraction batch is itself duplicate-free, and
every merged concept is an old or a new one. -/
theorem concept_merge_amended (old new : List String)
    (h1 : old.Nodup) (h2 : new.Nodup) :
    (extend_key_concepts old new).Nodup ∧
    (∀ c, c ∈ extend_key_concepts old new ↔ c ∈ old ∨ c ∈ new) := by
  constructor
  · unfold extend_key_concepts
    refine List.Nodup.append h1 (h2.filter _) ?_
    intro a ha hcontra
    have hmem := List.of_mem_filter hcontra
    simp only [decide_eq_true_eq] at hmem
    exact hmem ha
  · intro cc
    unfold extend_key_concepts
    simp only [List.mem_append, List.mem_filter, decide_eq_true_eq]
    constructor
    · rintro (hl | ⟨hr, -⟩)
      · exact Or.inl hl
      · exact Or.inr hr
    · rintro (hl | hr)
      · exact Or.inl hl
      · by_cases hold : cc ∈ old
        · exact Or.inl hold
        · exact Or.inr ⟨hr, hold⟩

/-- Witness for the amended C9 on concrete duplicate-free lists. -/
theorem concept_merge_amended_witness :
    (["A"] : List String).Nodup ∧ (["b", "A"] : List String).Nodup ∧
    (extend_key_concepts ["A"] ["b", "A"]).Nodup :=
  ⟨by decide, by decide,
    (concept_merge_amended ["A"] ["b", "A"] (by decide) (by decide)).1⟩

/-- Fuel adequacy: once the fuel exceeds the remaining iteration budget the
loop's value no longer depends on it — so the `max_iterations + 1` fuel used
by `conduct_research` computes the same run as the unbounded source loop. -/
lemma research_loop_fuel_stable (cfg : ResearchConfig) (o : Oracle) :
    ∀ (f1 f2 : Nat) (ctx : ResearchContext),
      cfg.max_iterations - ctx.iteration_count < f1 →
      cfg.max_iterations - ctx.iteration_count < f2 →
      research_loop cfg o f1 ctx = research_loop cfg o f2 ctx := by
  intro f1
  induction f1 with
  | zero => intro f2 ctx h1 h2; exact absurd h1 (by omega)
  | succ n ih =>
    intro f2 ctx h1 h2
    cases f2 with
    | zero => exact absurd h2 (by omega)
    | succ m =>
      simp only [research_loop]
      by_cases hg : should_continue_research cfg ctx = true
      · rw [if_pos hg, if_pos hg]
        cases hstep : research_step cfg o ctx with
        | inl out => rfl
        | inr c =>
          have hc := (research_step_inr_fields cfg o ctx c hstep).1
          have hlt := should_continue_lt cfg ctx hg
          have heq : research_loop cfg o n c = research_loop cfg o m c :=
            ih m c (by omega) (by omega)
          simp only [heq]
      · rw [if_neg hg, if_neg hg]
